import Mathlib

/-!
Verification of the extraction-service core: a shallow embedding of the
queue manager, rate limiter, model gateway, pipeline fan-out/finalize
stages and event broadcaster of the backend, with theorems settling the
specification claims about them.

Conventions of the embedding:
* user ids and extraction (job) ids are natural numbers;
* wall-clock instants (Python time.time floats) are rationals;
* calendar dates (datetime.date values) are integers (day ordinals);
* Python dicts keyed by ids are total functions into Option, a missing
  key being none;
* effectful methods become functions returning the mutated state (paired
  with their return value where there is one).
-/

namespace Extractable

/-- Pointwise update of an id-keyed map, modelling a Python dict assignment. -/
def fupd {α : Type} (f : Nat → α) (k : Nat) (v : α) : Nat → α :=
  fun x => if x = k then v else f x

/-! ## Rate limiter (app/services/rate_limiter.py) -/

/-- Configured ceilings, from app/core/config.py: rate_limit_rpm,
rate_limit_tpm, rate_limit_rpd (defaults 60 / 32000 / 1500). -/
structure RLConfig where
  rpm : Nat
  tpm : Nat
  rpd : Nat
deriving DecidableEq

/-- In-memory state of RateLimiter: user_rpm (per user, deque of request
timestamps, oldest first), user_tpm (deque of timestamp-token pairs),
user_rpd (requests today) and user_rpd_date (date of last daily reset). -/
@[ext]
structure RLState where
  user_rpm : Nat → Option (List ℚ)
  user_tpm : Nat → Option (List (ℚ × Nat))
  user_rpd : Nat → Option Nat
  user_rpd_date : Nat → Option Int

/-- RateLimiter._reset_daily_counters: zero the daily counter when no reset
date is recorded or the recorded date is before today. -/
def resetDailyCounters (today : Int) (u : Nat) (s : RLState) : RLState :=
  let doReset : Bool :=
    match s.user_rpd_date u with
    | none => true
    | some d => decide (d < today)
  if doReset then
    { s with user_rpd := fupd s.user_rpd u (some 0),
             user_rpd_date := fupd s.user_rpd_date u (some today) }
  else s

/-- The eviction test of _clean_old_requests: a timestamp strictly older
than the cutoff (now minus the 60-second window) is popped. -/
def oldReq (cutoff : ℚ) (t : ℚ) : Bool := decide (t < cutoff)

/-- RateLimiter._clean_old_requests: pop entries older than 60 seconds from
the front of the per-minute deques (strict comparison with now - 60). -/
def cleanOldRequests (now : ℚ) (u : Nat) (s : RLState) : RLState :=
  let s1 :=
    match s.user_rpm u with
    | none => s
    | some l =>
        { s with user_rpm := fupd s.user_rpm u (some (l.dropWhile (oldReq (now - 60)))) }
  match s1.user_tpm u with
  | none => s1
  | some l =>
      { s1 with user_tpm := fupd s1.user_tpm u (some (l.dropWhile (fun e => oldReq (now - 60) e.1))) }

/-- The "Initialize tracking if needed" block of check_rate_limit. -/
def initUser (u : Nat) (s : RLState) : RLState :=
  let s1 := match s.user_rpm u with
    | none => { s with user_rpm := fupd s.user_rpm u (some []) }
    | some _ => s
  let s2 := match s1.user_tpm u with
    | none => { s1 with user_tpm := fupd s1.user_tpm u (some []) }
    | some _ => s1
  match s2.user_rpd u with
  | none => { s2 with user_rpd := fupd s2.user_rpd u (some 0) }
  | some _ => s2

/-- Total tokens currently in a user's per-minute token window. -/
def tpmTotal (l : List (ℚ × Nat)) : Nat :=
  l.foldl (fun a e => a + e.2) 0

/-- The state mutations check_rate_limit performs before reading the
ceilings: reset a stale daily counter, evict old window entries, then
initialize missing tracking structures. -/
def checkState (now : ℚ) (today : Int) (u : Nat) (s : RLState) : RLState :=
  initUser u (cleanOldRequests now u (resetDailyCounters today u s))

/-- The ceiling tests of check_rate_limit on the mutated state: the RPM,
TPM and RPD checks in source order; any one breach yields false. -/
def checkAnswer (cfg : RLConfig) (u : Nat) (tokens : Nat) (s3 : RLState) : Bool :=
  if cfg.rpm ≤ ((s3.user_rpm u).getD []).length then false
  else if cfg.tpm < tpmTotal ((s3.user_tpm u).getD []) + tokens then false
  else if cfg.rpd ≤ (s3.user_rpd u).getD 0 then false
  else true

/-- RateLimiter.check_rate_limit: reset stale daily counter, evict old
window entries, initialize missing structures, then test the RPM, TPM and
RPD ceilings in that order. Returns the answer together with the state as
mutated by those bookkeeping steps. -/
def check_rate_limit (cfg : RLConfig) (now : ℚ) (today : Int) (u : Nat)
    (tokens : Nat) (s : RLState) : Bool × RLState :=
  (checkAnswer cfg u tokens (checkState now today u s), checkState now today u s)

/-- RateLimiter.record_request: append the timestamp to the RPM window, a
timestamp-token pair to the TPM window, and increment the daily counter. -/
def record_request (now : ℚ) (u : Nat) (tokens : Nat) (s : RLState) : RLState :=
  let s1 := initUser u s
  { s1 with
    user_rpm := fupd s1.user_rpm u (some (((s1.user_rpm u).getD []) ++ [now])),
    user_tpm := fupd s1.user_tpm u (some (((s1.user_tpm u).getD []) ++ [(now, tokens)])),
    user_rpd := fupd s1.user_rpd u (some (((s1.user_rpd u).getD 0) + 1)) }

/-- RateLimiter.wait_for_rate_limit: 0 when the check passes; otherwise
60 - (now - oldest) floored at 0 when the per-minute window is non-empty,
and a default 1 second when it is empty. Returns the wait together with
the state as mutated by the embedded check. -/
def wait_for_rate_limit (cfg : RLConfig) (now : ℚ) (today : Int) (u : Nat)
    (tokens : Nat) (s : RLState) : ℚ × RLState :=
  match check_rate_limit cfg now today u tokens s with
  | (true, s1) => (0, s1)
  | (false, s1) =>
      match s1.user_rpm u with
      | some (oldest :: _) => (max 0 (60 - (now - oldest)), s1)
      | _ => (1, s1)

/-! ## Model gateway (app/services/openai_client.py) -/

/-- OpenAIClient._count_tokens: rough estimate, one token per 4 characters
(integer division). -/
def countTokens (text : String) : Nat :=
  text.length / 4

/-- Token estimate of generate_content: prompt tokens plus a flat 1000-token
surcharge per attached image. -/
def estimateTokens (prompt : String) (nImages : Nat) : Nat :=
  countTokens prompt + nImages * 1000

/-- Outcome of the (retry-wrapped) outbound OpenAI call, as observed by
generate_content: a text/raw response, a provider rate-limit error that
survived the tenacity retries, or any other provider error. -/
inductive ProviderOutcome where
  | ok (text raw : String)
  | rateLimited (msg : String)
  | apiError (msg : String)
deriving DecidableEq

/-- Errors generate_content can raise: the service's own RateLimitError or
a wrapped provider exception. -/
inductive GCError where
  | rateLimitExceeded (msg : String)
  | apiError (msg : String)
deriving DecidableEq

/-- Observable result of one generate_content call: the returned value or
raised error, the rate-limiter state afterwards, how many outbound provider
calls were issued, and how long the gateway slept on the limiter's advice. -/
structure GCResult where
  result : Except GCError (String × String)
  state : RLState
  providerCalls : Nat
  slept : ℚ

/-- OpenAIClient.generate_content: estimate tokens, ask the rate limiter for
a wait, sleep when positive, re-check the budget, raise RateLimitError when
still over budget (before any outbound call), otherwise call the provider
and record usage only on success. now1 is the instant of the first check,
now2 the instant after the advised sleep. -/
def generate_content (cfg : RLConfig) (now1 now2 : ℚ) (today : Int) (u : Nat)
    (prompt : String) (nImages : Nat) (provider : ProviderOutcome)
    (s : RLState) : GCResult :=
  let tokens := estimateTokens prompt nImages
  let w := wait_for_rate_limit cfg now1 today u tokens s
  let slept := if 0 < w.1 then w.1 else 0
  let c := check_rate_limit cfg now2 today u tokens w.2
  if c.1 = false then
    { result := .error (.rateLimitExceeded ("Rate limit exceeded for user " ++ toString u)),
      state := c.2, providerCalls := 0, slept := slept }
  else
    match provider with
    | .ok t r =>
        { result := .ok (t, r), state := record_request now2 u tokens c.2,
          providerCalls := 1, slept := slept }
    | .rateLimited m =>
        { result := .error (.rateLimitExceeded ("OpenAI API rate limit exceeded: " ++ m)),
          state := c.2, providerCalls := 1, slept := slept }
    | .apiError m =>
        { result := .error (.apiError ("OpenAI API error: " ++ m)), state := c.2,
          providerCalls := 1, slept := slept }

/-! ## Stage 2/3 fan-out (app/services/extractor.py, validator.py)

asyncio.gather returns its result list in task-submission order whatever
order the tasks complete in, so a per-index outcome assignment fully
determines the merged list; completion order cannot appear in the model
because it cannot influence the code's output. Python's list.sort is a
stable sort; it is modelled by insertion sort, which is also stable. -/

/-- Per-image outcome of extract_tables_from_image as seen by the gathering
caller: a parsed table dict, a parse-error dict carrying the raw response,
or a raised exception (captured by gather with return_exceptions=True). -/
inductive ExtractOutcome where
  | parsed (data : String)
  | parseError (err raw : String)
  | exn (msg : String)
deriving DecidableEq

/-- One entry of the merged stage-2 list. origin is the index of the image
the entry came from (a ghost field for stating ordering properties);
image_index is the value of the dict's "image_index" key, which stage 2
assigns itself on every path. -/
structure ExEntry where
  origin : Nat
  image_index : Int
  payload : ExtractOutcome
deriving DecidableEq

/-- Comparison used by results.sort(key=lambda x: x.get("image_index", 0))
for stage 2. -/
def exKeyLe (a b : ExEntry) : Prop := a.image_index ≤ b.image_index

instance : DecidableRel exKeyLe := fun a b => by
  unfold exKeyLe; infer_instance

/-- The entry extract_tables_from_images appends for image idx: a caught
exception becomes an error dict with the image index, and any other result
dict gets its image_index key overwritten with idx. -/
def exMk (outcomes : Nat → ExtractOutcome) (idx : Nat) : ExEntry :=
  match outcomes idx with
  | .exn msg => { origin := idx, image_index := idx, payload := .exn msg }
  | o => { origin := idx, image_index := idx, payload := o }

/-- extract_tables_from_images: run one extraction per image, tag every
result (success or error) with its image index, and sort by that index. -/
def extract_tables_from_images (outcomes : Nat → ExtractOutcome) (n : Nat) :
    List ExEntry :=
  ((List.range n).map (exMk outcomes)).insertionSort exKeyLe

/-- Per-image outcome of validate_extraction as seen by the gathering
caller. A successfully parsed validation is whatever JSON the model
returned; its "image_index" key (idxField, none when absent) is
model-controlled. The parse-error path and the exception path carry the
original index themselves. -/
inductive ValidateOutcome where
  | parsed (idxField : Option Int) (data : String)
  | parseError (err raw : String)
  | exn (msg : String)
deriving DecidableEq

/-- One entry of the merged stage-3 list; sortKey is x.get("image_index", 0)
and origin the ghost index of the source image. -/
structure ValEntry where
  origin : Nat
  sortKey : Int
  payload : ValidateOutcome
deriving DecidableEq

/-- Comparison used by validations.sort(key=lambda x: x.get("image_index", 0)). -/
def valKeyLe (a b : ValEntry) : Prop := a.sortKey ≤ b.sortKey

instance : DecidableRel valKeyLe := fun a b => by
  unfold valKeyLe; infer_instance

/-- The entry validate_extractions appends for image idx: a caught
exception or a parse failure carries the original index; a successfully
parsed validation keeps whatever image_index the model reported (0 when
absent) as its sort key. -/
def valMk (outcomes : Nat → ValidateOutcome) (idx : Nat) : ValEntry :=
  match outcomes idx with
  | .parsed f d => { origin := idx, sortKey := f.getD 0, payload := .parsed f d }
  | .parseError e r => { origin := idx, sortKey := idx, payload := .parseError e r }
  | .exn msg => { origin := idx, sortKey := idx, payload := .exn msg }

/-- validate_extractions: run one validation per extraction, keep parsed
results as-is (their image_index is whatever the model reported, defaulting
to 0 for the sort), tag error/exception entries with the original index,
and sort by the image_index key. -/
def validate_extractions (outcomes : Nat → ValidateOutcome) (n : Nat) :
    List ValEntry :=
  ((List.range n).map (valMk outcomes)).insertionSort valKeyLe

/-! ## Finalize and store stages (app/services/finalizer.py,
storage_service.py, app/pipeline/extraction_pipeline.py)

The JSON-repair heuristics themselves are best-effort text parsing and not
part of the contract (spec section 1, non-goal); parse_json_response and
the three recovery strategies of generate_final_output appear as oracle
functions returning some parsed payload or none. -/

/-- Final payload of a job: the parsed consolidated table, or the error
marker dict built when the finalize output stays unparseable. -/
inductive FinalData where
  | parsed (data : String)
  | errorMarker (err : String) (rawTrunc : String)
deriving DecidableEq

/-- The raw-response truncation of the finalize error marker:
raw_text[:1000] if len(raw_text) > 1000 else raw_text. -/
def truncateRaw (raw : String) : String :=
  if raw.length > 1000 then raw.take 1000 else raw

/-- generate_final_output: call the model (a propagating error when the
gateway raised), try the strict parse, then the three recovery strategies
in order, and when everything fails return the error-marker structure with
the truncated raw text instead of raising. -/
def generate_final_output (call : Except String String)
    (parse strat1 strat2 strat3 : String → Option String)
    (parseErr : String) : Except String FinalData :=
  match call with
  | .error e => .error e
  | .ok text =>
      match parse text with
      | some d => .ok (.parsed d)
      | none =>
          match strat1 text with
          | some d => .ok (.parsed d)
          | none =>
              match strat2 text with
              | some d => .ok (.parsed d)
              | none =>
                  match strat3 text with
                  | some d => .ok (.parsed d)
                  | none => .ok (.errorMarker parseErr (truncateRaw text))

/-- Job lifecycle status (app/models/enums.py, ExtractionStatus). -/
inductive St where
  | pending
  | processing
  | completed
  | failed
deriving DecidableEq

/-- Steps 4-5 of run_extraction_pipeline: when generate_final_output
returned a value, store_extraction_outputs marks the job completed with
that value as its table_data; when it raised, the exception reaches the
pipeline's handler which marks the job failed with no result. -/
def finalizeAndStore (final : Except String FinalData) : St × Option FinalData :=
  match final with
  | .error _ => (.failed, none)
  | .ok d => (.completed, some d)

/-! ## Event broadcaster (app/services/event_manager.py) -/

/-- EventManager state: _connections maps an extraction id to the set of
subscriber queues; each queue is modelled by the list of events delivered
to it so far. A missing key means no subscriber set exists. -/
structure EMState where
  connections : Nat → Option (List (List String))

/-- EventManager.subscribe: create the subscriber set if missing and add a
fresh empty queue to it; returns the state (the new queue is the last
element of the set). -/
def em_subscribe (s : EMState) (eid : Nat) : EMState :=
  let chans := (s.connections eid).getD []
  { connections := fupd s.connections eid (some (chans ++ [[]])) }

/-- EventManager.broadcast: no-op when the extraction id has no subscriber
set; otherwise put the event on every subscribed queue. The per-queue put
is wrapped in try/except in the source, and putting on an unbounded queue
cannot fail, so delivery is total. -/
def em_broadcast (s : EMState) (eid : Nat) (ev : String) : EMState :=
  match s.connections eid with
  | none => s
  | some chans =>
      { connections := fupd s.connections eid (some (chans.map (fun q => q ++ [ev]))) }

/-! ## Queue manager (app/services/queue_manager.py) -/

/-- Job priority. enqueue_extraction compares the priority string against
"high" and "low"; every other string takes the medium branch, so three
cases are exhaustive. -/
inductive Priority where
  | high
  | medium
  | low
deriving DecidableEq

/-- A pending-queue item: (priority, extraction_id). -/
abbrev QItem := Priority × Nat

/-- The medium-priority insertion loop of enqueue_extraction, translated
literally. The asyncio.Queue being drained is the same queue being refilled
(get_nowait takes the front, put appends to the back), temp_items is never
cleared after being flushed, and the loop runs while the queue is
non-empty. Nontermination of the Python loop is modelled by fuel: none
means the loop has not finished within the given number of iterations. -/
def mediumLoop (newItem : QItem) :
    Nat → List QItem → List QItem → Bool → Option (List QItem)
  | _, [], temp, found =>
      -- loop exit: if not found_insert, flush temp_items and append the item
      some (if found then [] else temp ++ [newItem])
  | 0, _ :: _, _, _ => none
  | fuel + 1, item :: rest, temp, found =>
      if item.1 = .high then
        mediumLoop newItem fuel rest (temp ++ [item]) found
      else if found = false then
        mediumLoop newItem fuel (rest ++ temp ++ [newItem, item]) temp true
      else
        mediumLoop newItem fuel (rest ++ [item]) temp found

/-- Entry point of the medium branch: loop over the current queue with
empty temp_items and found_insert = False. -/
def mediumInsert (fuel : Nat) (newItem : QItem) (q : List QItem) :
    Option (List QItem) :=
  mediumLoop newItem fuel q [] false

/-- Relational result of the priority-insertion section of
enqueue_extraction: q' is a queue state the section can terminate with,
starting from queue q. The high branch drains everything and re-puts the
new item first; the low branch appends; the medium branch is the loop
above, which completes only when some fuel suffices. -/
def InsertsTo (p : Priority) (jid : Nat) (q q' : List QItem) : Prop :=
  match p with
  | .high => q' = (Priority.high, jid) :: q
  | .low => q' = q ++ [(Priority.low, jid)]
  | .medium => ∃ fuel, mediumInsert fuel (Priority.medium, jid) q = some q'

/-- State of ExtractionQueueManager together with the scheduler facts the
concurrency claims are about: queues is _user_queues (front of each list =
next get_nowait), processing is _processing, files is _file_storage
membership, statuses the job statuses in the database, tasks the number of
process_queue tasks created but not yet past their locked section, and
running the ids of jobs whose pipeline section (between the locked dequeue
and the finally block) is currently executing for the user. -/
structure QMState where
  queues : Nat → Option (List QItem)
  processing : Nat → Option Nat
  files : Nat → Bool
  statuses : Nat → Option St
  tasks : Nat → Nat
  running : Nat → List Nat

/-- Initial state: no queues, nothing processing, no stored files, no
scheduled tasks, no running pipelines. -/
def initQM : QMState :=
  { queues := fun _ => none, processing := fun _ => none,
    files := fun _ => false, statuses := fun _ => none,
    tasks := fun _ => 0, running := fun _ => [] }

/-- The file_content store preceding the lock in enqueue_extraction:
self._file_storage[extraction_id] = (file_content, filename). -/
def storeFile (s : QMState) (jid : Nat) : QMState :=
  { s with files := fupd s.files jid true }

/-- The locked section of enqueue_extraction, given the queue q' the
insertion terminated with: create the user's queue and processing slot on
first contact, install the new queue, and when nothing is processing for
the user schedule one process_queue task. -/
def enqueueLocked (s : QMState) (u : Nat) (q' : List QItem) : QMState :=
  let s1 :=
    match s.queues u with
    | none =>
        { s with queues := fupd s.queues u (some []),
                 processing := fupd s.processing u none }
    | some _ => s
  let s2 := { s1 with queues := fupd s1.queues u (some q') }
  if s2.processing u = none then
    { s2 with tasks := fupd s2.tasks u (s2.tasks u + 1) }
  else s2

/-- The locked section at the head of process_queue, run by one scheduled
task: return unchanged when the user has no queue, when a job is already
processing, or when the queue is empty; otherwise dequeue the head, mark it
as the user's processing job and enter the pipeline section. -/
def startLocked (s : QMState) (u : Nat) : QMState :=
  match s.queues u with
  | none => s
  | some q =>
      if (s.processing u).isSome then s
      else
        match q with
        | [] => s
        | (_, jid) :: rest =>
            { s with queues := fupd s.queues u (some rest),
                     processing := fupd s.processing u (some jid),
                     running := fupd s.running u (jid :: s.running u) }

/-- One scheduled process_queue task reaching and executing its locked
section: the task is consumed whether or not it dequeues anything. -/
def startTask (s : QMState) (u : Nat) : QMState :=
  startLocked { s with tasks := fupd s.tasks u (s.tasks u - 1) } u

/-- How the pipeline section of process_queue can end, beyond the state the
model tracks: the extraction row is missing from the database, or the row
is found and the pipeline either completes or raises, the failure-status
update itself possibly failing too. Whether the job's file bytes are
present is read from the state, not from this oracle. -/
inductive PipeOutcome where
  | ok
  | fail (dbUpdateOk : Bool)
deriving DecidableEq

inductive RunOutcome where
  | missingExtraction
  | proceed (po : PipeOutcome)
deriving DecidableEq

/-- Database status writes of the pipeline section before its finally
block: nothing when the extraction row is missing; failed when the file
bytes are gone; otherwise processing is committed, then the pipeline ends
completed (store stage) or the except handler writes failed — unless that
write itself fails, leaving the row at processing. -/
def runMain (s : QMState) (jid : Nat) (oc : RunOutcome) : QMState :=
  match oc with
  | .missingExtraction => s
  | .proceed po =>
      if s.files jid = false then
        { s with statuses := fupd s.statuses jid (some .failed) }
      else
        let s1 := { s with statuses := fupd s.statuses jid (some .processing) }
        match po with
        | .ok => { s1 with statuses := fupd s1.statuses jid (some .completed) }
        | .fail true => { s1 with statuses := fupd s1.statuses jid (some .failed) }
        | .fail false => s1

/-- The pipeline section of process_queue for job jid of user u, including
its finally block: whatever runMain did, delete the job's stored file
bytes, clear the user's processing slot, and (the user's queue entry is
never deleted once created) schedule the next process_queue task; the
coroutine then ends, removing jid from the running pipelines. -/
def runBody (s : QMState) (u : Nat) (jid : Nat) (oc : RunOutcome) : QMState :=
  let s1 := runMain s jid oc
  let s2 := { s1 with files := fupd s1.files jid false }
  let s3 := { s2 with processing := fupd s2.processing u none }
  let s4 :=
    if (s3.queues u).isSome then
      { s3 with tasks := fupd s3.tasks u (s3.tasks u + 1) }
    else s3
  { s4 with running := fupd s4.running u ((s4.running u).erase jid) }

/-- One atomic step of the queue-manager concurrency model: the pre-lock
file store, the locked enqueue section (enabled only when the insertion
loop terminates), a scheduled task's locked dequeue section, and a running
pipeline's completion with any outcome. -/
inductive QMStep : QMState → QMState → Prop where
  | store (s : QMState) (jid : Nat) : QMStep s (storeFile s jid)
  | enqueue (s : QMState) (u jid : Nat) (p : Priority) (q' : List QItem)
      (h : InsertsTo p jid ((s.queues u).getD []) q') :
      QMStep s (enqueueLocked s u q')
  | start (s : QMState) (u : Nat) (h : s.tasks u ≠ 0) :
      QMStep s (startTask s u)
  | finish (s : QMState) (u jid : Nat) (oc : RunOutcome)
      (h : jid ∈ s.running u) :
      QMStep s (runBody s u jid oc)

/-- States reachable from the initial state by any interleaving of steps. -/
inductive QMReachable : QMState → Prop where
  | init : QMReachable initQM
  | step {s t : QMState} : QMReachable s → QMStep s t → QMReachable t

/-- The mutual-exclusion invariant of the queue manager: a user with no
queue entry has nothing processing, and the running pipelines of a user
are exactly the job its processing slot names — in particular there is
never more than one. -/
def QMInv (s : QMState) : Prop :=
  ∀ u, (s.queues u = none → s.processing u = none) ∧
       (match s.processing u with
        | some j => s.running u = [j]
        | none => s.running u = [])

/-! ## Concrete inputs used by the witness theorems -/

/-- The default ceilings of app/core/config.py. -/
def cfgStd : RLConfig := ⟨60, 32000, 1500⟩

/-- A small configuration for exercising the RPM ceiling. -/
def cfgSmall : RLConfig := ⟨2, 1000, 100⟩

/-- An all-zero configuration, under which every budget check fails. -/
def cfgZero : RLConfig := ⟨0, 0, 0⟩

/-- A rate limiter with no recorded state. -/
def emptyRL : RLState :=
  ⟨fun _ => none, fun _ => none, fun _ => none, fun _ => none⟩

/-- User 0 with two requests (at instants 0 and 10) in the RPM window. -/
def rlTwo : RLState :=
  { emptyRL with user_rpm := fun u => if u = 0 then some [0, 10] else none }

/-- Stage-3 outcomes whose image-0 validation parses but reports
image_index 7, while image 1 raises. -/
def valOutBad : Nat → ValidateOutcome :=
  fun i => if i = 0 then .parsed (some 7) "d" else .exn "boom"

/-- Stage-3 outcomes whose parsed validations report their own index. -/
def valOutGood : Nat → ValidateOutcome :=
  fun i => .parsed (some (Int.ofNat i)) "d"

/-- Stage-2 outcomes that all parse. -/
def exOutOk : Nat → ExtractOutcome := fun _ => .parsed "d"

/-- A queue-manager state in which user queues exist, job 5 is running for
every user and its file bytes are stored. -/
def qmRun : QMState :=
  { initQM with queues := fun _ => some [], processing := fun _ => some 5,
                files := fun _ => true, running := fun _ => [5] }

/-- A queue-manager state in which job 3 is marked processing for every
user. -/
def qmBusy : QMState := { initQM with processing := fun _ => some 3 }

/-! ## Basic lemmas about map updates -/

@[simp] theorem fupd_same {α : Type} (f : Nat → α) (k : Nat) (v : α) :
    fupd f k v k = v := by simp [fupd]

@[simp] theorem fupd_other {α : Type} (f : Nat → α) (k : Nat) (v : α) (x : Nat)
    (h : x ≠ k) : fupd f k v x = f x := by simp [fupd, h]

theorem fupd_self {α : Type} (f : Nat → α) (k : Nat) : fupd f k (f k) = f := by
  funext x
  by_cases h : x = k
  · subst h; simp [fupd]
  · simp [fupd, h]

/-! ## Component lemmas for the rate limiter -/

theorem reset_user_rpm (today : Int) (u : Nat) (s : RLState) :
    (resetDailyCounters today u s).user_rpm = s.user_rpm := by
  unfold resetDailyCounters
  dsimp only
  split <;> rfl

theorem reset_user_tpm (today : Int) (u : Nat) (s : RLState) :
    (resetDailyCounters today u s).user_tpm = s.user_tpm := by
  unfold resetDailyCounters
  dsimp only
  split <;> rfl

theorem clean_user_rpm (now : ℚ) (u : Nat) (s : RLState) :
    (cleanOldRequests now u s).user_rpm u
      = (s.user_rpm u).map (fun l => l.dropWhile (oldReq (now - 60))) := by
  unfold cleanOldRequests
  rcases h1 : s.user_rpm u with _ | l1 <;>
    rcases h2 : s.user_tpm u with _ | l2 <;>
      simp [h1, h2]

theorem clean_user_tpm (now : ℚ) (u : Nat) (s : RLState) :
    (cleanOldRequests now u s).user_tpm u
      = (s.user_tpm u).map (fun l => l.dropWhile (fun e => oldReq (now - 60) e.1)) := by
  unfold cleanOldRequests
  rcases h1 : s.user_rpm u with _ | l1 <;>
    rcases h2 : s.user_tpm u with _ | l2 <;>
      simp [h1, h2]

theorem clean_user_rpd (now : ℚ) (u : Nat) (s : RLState) :
    (cleanOldRequests now u s).user_rpd = s.user_rpd := by
  unfold cleanOldRequests
  rcases h1 : s.user_rpm u with _ | l1 <;>
    rcases h2 : s.user_tpm u with _ | l2 <;>
      simp [h1, h2]

theorem clean_user_rpd_date (now : ℚ) (u : Nat) (s : RLState) :
    (cleanOldRequests now u s).user_rpd_date = s.user_rpd_date := by
  unfold cleanOldRequests
  rcases h1 : s.user_rpm u with _ | l1 <;>
    rcases h2 : s.user_tpm u with _ | l2 <;>
      simp [h1, h2]

theorem initUser_user_rpm (u : Nat) (s : RLState) :
    (initUser u s).user_rpm u = some ((s.user_rpm u).getD []) := by
  unfold initUser
  rcases h1 : s.user_rpm u with _ | a <;>
    rcases h2 : s.user_tpm u with _ | b <;>
      rcases h3 : s.user_rpd u with _ | c <;>
        simp [h1, h2, h3]

theorem initUser_user_tpm (u : Nat) (s : RLState) :
    (initUser u s).user_tpm u = some ((s.user_tpm u).getD []) := by
  unfold initUser
  rcases h1 : s.user_rpm u with _ | a <;>
    rcases h2 : s.user_tpm u with _ | b <;>
      rcases h3 : s.user_rpd u with _ | c <;>
        simp [h1, h2, h3]

theorem initUser_user_rpd (u : Nat) (s : RLState) :
    (initUser u s).user_rpd u = some ((s.user_rpd u).getD 0) := by
  unfold initUser
  rcases h1 : s.user_rpm u with _ | a <;>
    rcases h2 : s.user_tpm u with _ | b <;>
      rcases h3 : s.user_rpd u with _ | c <;>
        simp [h1, h2, h3]

theorem initUser_user_rpd_date (u : Nat) (s : RLState) :
    (initUser u s).user_rpd_date = s.user_rpd_date := by
  unfold initUser
  rcases h1 : s.user_rpm u with _ | a <;>
    rcases h2 : s.user_tpm u with _ | b <;>
      rcases h3 : s.user_rpd u with _ | c <;>
        simp [h1, h2, h3]

theorem dropWhile_eq_self_of {α : Type} (p : α → Bool) :
    ∀ l : List α, (∀ x ∈ l, p x = false) → l.dropWhile p = l
  | [], _ => rfl
  | a :: t, h => by
      have ha : p a = false := h a (List.mem_cons_self a t)
      simp [List.dropWhile_cons, ha]

/-! ## Claim C5 -/

/-- Claim C5: when a user's RPM window already holds a number of requests
equal to the configured RPM ceiling, all timestamped within the last 60
seconds, check_rate_limit refuses any additional request; and at a later
instant at which the oldest recorded request has fallen outside the
60-second window, with the token and daily ceilings not exceeded,
check_rate_limit accepts again. -/
theorem C5_rate_budget (cfg : RLConfig) (s : RLState) (u : Nat)
    (now1 now2 : ℚ) (today1 today2 : Int) (tok1 tok2 : Nat)
    (h0 : 0 < cfg.rpm)
    (hlen : ((s.user_rpm u).getD []).length = cfg.rpm)
    (hin : ∀ t ∈ (s.user_rpm u).getD [], now1 - 60 ≤ t)
    (s' : RLState) (hs' : s' = (check_rate_limit cfg now1 today1 u tok1 s).2)
    (t0 : ℚ) (hhead : ((s.user_rpm u).getD []).head? = some t0)
    (hout : t0 < now2 - 60)
    (htm : tpmTotal (((cleanOldRequests now2 u (resetDailyCounters today2 u s')).user_tpm u).getD [])
             + tok2 ≤ cfg.tpm)
    (hrd : ((resetDailyCounters today2 u s').user_rpd u).getD 0 < cfg.rpd) :
    (check_rate_limit cfg now1 today1 u tok1 s).1 = false ∧
    (check_rate_limit cfg now2 today2 u tok2 s').1 = true := by
  have hdrop1 : ((s.user_rpm u).getD []).dropWhile (oldReq (now1 - 60))
      = (s.user_rpm u).getD [] := by
    refine dropWhile_eq_self_of _ _ (fun x hx => ?_)
    have := hin x hx
    simp only [oldReq, decide_eq_false_iff_not, not_lt]
    exact this
  -- the state after the first check keeps the full window for u
  have hrpm1 : (checkState now1 today1 u s).user_rpm u
      = some ((s.user_rpm u).getD []) := by
    unfold checkState
    rw [initUser_user_rpm, clean_user_rpm]
    rw [show (resetDailyCounters today1 u s).user_rpm u = s.user_rpm u from
      congrFun (reset_user_rpm today1 u s) u]
    rcases hsu : s.user_rpm u with _ | l0
    · simp
    · rw [hsu] at hdrop1
      simp only [Option.map_some', Option.getD_some] at hdrop1 ⊢
      exact congrArg some hdrop1
  constructor
  · -- first check: RPM ceiling reached, answer false
    show checkAnswer cfg u tok1 (checkState now1 today1 u s) = false
    unfold checkAnswer
    rw [hrpm1]
    simp [hlen]
  · -- second check: the oldest entry is evicted, all ceilings pass
    have hs'rpm : s'.user_rpm u = some ((s.user_rpm u).getD []) := by
      rw [hs']; exact hrpm1
    show checkAnswer cfg u tok2 (checkState now2 today2 u s') = true
    have hrpm2 : (checkState now2 today2 u s').user_rpm u
        = some (((s.user_rpm u).getD []).dropWhile (oldReq (now2 - 60))) := by
      unfold checkState
      rw [initUser_user_rpm, clean_user_rpm]
      rw [show (resetDailyCounters today2 u s').user_rpm u = s'.user_rpm u from
        congrFun (reset_user_rpm today2 u s') u]
      rw [hs'rpm]
      simp
    have htpm2 : (checkState now2 today2 u s').user_tpm u
        = some (((cleanOldRequests now2 u (resetDailyCounters today2 u s')).user_tpm u).getD []) := by
      unfold checkState
      rw [initUser_user_tpm]
    have hrpd2 : (checkState now2 today2 u s').user_rpd u
        = some (((resetDailyCounters today2 u s').user_rpd u).getD 0) := by
      unfold checkState
      rw [initUser_user_rpd]
      rw [show (cleanOldRequests now2 u (resetDailyCounters today2 u s')).user_rpd
            = (resetDailyCounters today2 u s').user_rpd from
        clean_user_rpd now2 u _]
    -- the dropped window is strictly shorter than the ceiling
    have hlt : (((s.user_rpm u).getD []).dropWhile (oldReq (now2 - 60))).length < cfg.rpm := by
      rcases hl : (s.user_rpm u).getD [] with _ | ⟨a, t⟩
      · rw [hl] at hlen
        simp at hlen
        omega
      · have ha : a = t0 := by
          rw [hl] at hhead
          simpa using hhead
        have hpa : oldReq (now2 - 60) a = true := by
          simp only [oldReq, decide_eq_true_eq, ha]
          exact hout
        have hle : ((a :: t).dropWhile (oldReq (now2 - 60))).length ≤ t.length := by
          rw [List.dropWhile_cons, if_pos (by simp [hpa])]
          exact (List.dropWhile_sublist _).length_le
        have hlt' : t.length < cfg.rpm := by
          rw [hl] at hlen
          simp at hlen
          omega
        omega
    unfold checkAnswer
    rw [hrpm2, htpm2, hrpd2]
    simp only [Option.getD_some]
    rw [if_neg (by omega)]
    rw [if_neg (by omega)]
    rw [if_neg (by omega)]

/-- Witness for C5 at a concrete input: user 0 with requests at instants 0
and 10 under a ceiling of 2 RPM is refused at instant 50 and accepted again
at instant 71, once the oldest entry has left the window. -/
theorem C5_rate_budget_witness :
    (check_rate_limit cfgSmall 50 0 0 0 rlTwo).1 = false ∧
    (check_rate_limit cfgSmall 71 0 0 0
        (check_rate_limit cfgSmall 50 0 0 0 rlTwo).2).1 = true :=
  C5_rate_budget cfgSmall rlTwo 0 50 71 0 0 0 0 (by decide) (by decide)
    (by
      intro t ht
      have h : t = 0 ∨ t = 10 := by simpa [rlTwo, emptyRL] using ht
      rcases h with h | h <;> subst h <;> norm_num)
    _ rfl 0 rfl (by norm_num) (by decide) (by decide)

/-! ## Claim C6 -/

/-- Claim C6: wait_for_rate_limit returns 0 when the budget check passes;
when the check fails and the per-minute window is non-empty it returns
60 - (now - oldest) floored at 0; when the check fails with an empty window
it returns the fixed default wait of 1 second; and the returned duration is
never negative. -/
theorem C6_wait_time (cfg : RLConfig) (now : ℚ) (today : Int) (u : Nat)
    (tokens : Nat) (s : RLState) :
    0 ≤ (wait_for_rate_limit cfg now today u tokens s).1 ∧
    ((check_rate_limit cfg now today u tokens s).1 = true →
      (wait_for_rate_limit cfg now today u tokens s).1 = 0) ∧
    (∀ t0 rest, (check_rate_limit cfg now today u tokens s).1 = false →
      (check_rate_limit cfg now today u tokens s).2.user_rpm u = some (t0 :: rest) →
      (wait_for_rate_limit cfg now today u tokens s).1 = max 0 (60 - (now - t0))) ∧
    ((check_rate_limit cfg now today u tokens s).1 = false →
      (check_rate_limit cfg now today u tokens s).2.user_rpm u = some [] →
      (wait_for_rate_limit cfg now today u tokens s).1 = 1) := by
  have h1 : (check_rate_limit cfg now today u tokens s).1
      = checkAnswer cfg u tokens (checkState now today u s) := rfl
  have h2 : (check_rate_limit cfg now today u tokens s).2
      = checkState now today u s := rfl
  have hch : check_rate_limit cfg now today u tokens s
      = (checkAnswer cfg u tokens (checkState now today u s),
         checkState now today u s) := rfl
  unfold wait_for_rate_limit
  rw [h1, h2, hch]
  cases hb : checkAnswer cfg u tokens (checkState now today u s) with
  | true =>
      simp
  | false =>
      dsimp only
      cases hrpm : (checkState now today u s).user_rpm u with
      | none =>
          simp
      | some l =>
          cases l with
          | nil => simp
          | cons a t =>
              refine ⟨le_max_left 0 _, by simp, ?_, by simp⟩
              intro t0 rest _ hsome
              have h' := Option.some.inj hsome
              injection h' with ha _
              subst ha
              simp

/-- Witness for C6 at a concrete input: with all ceilings at zero and no
recorded window entries, the check fails, the window is empty, and the
advised wait is the default 1 second (which is non-negative). -/
theorem C6_wait_time_witness :
    0 ≤ (wait_for_rate_limit cfgZero 0 0 0 0 emptyRL).1 ∧
    (wait_for_rate_limit cfgZero 0 0 0 0 emptyRL).1 = 1 :=
  ⟨(C6_wait_time cfgZero 0 0 0 0 emptyRL).1,
   (C6_wait_time cfgZero 0 0 0 0 emptyRL).2.2.2 rfl rfl⟩

/-! ## Claim C10: supporting lemmas -/

theorem reset_user_rpd_other (today : Int) (u v : Nat) (s : RLState) (hv : v ≠ u) :
    (resetDailyCounters today u s).user_rpd v = s.user_rpd v := by
  unfold resetDailyCounters
  dsimp only
  split <;> simp [fupd, hv]

theorem reset_user_rpd_date_other (today : Int) (u v : Nat) (s : RLState) (hv : v ≠ u) :
    (resetDailyCounters today u s).user_rpd_date v = s.user_rpd_date v := by
  unfold resetDailyCounters
  dsimp only
  split <;> simp [fupd, hv]

theorem clean_user_rpm_other (now : ℚ) (u v : Nat) (s : RLState) (hv : v ≠ u) :
    (cleanOldRequests now u s).user_rpm v = s.user_rpm v := by
  unfold cleanOldRequests
  rcases h1 : s.user_rpm u with _ | l1 <;>
    rcases h2 : s.user_tpm u with _ | l2 <;>
      simp [h1, h2, fupd, hv]

theorem clean_user_tpm_other (now : ℚ) (u v : Nat) (s : RLState) (hv : v ≠ u) :
    (cleanOldRequests now u s).user_tpm v = s.user_tpm v := by
  unfold cleanOldRequests
  rcases h1 : s.user_rpm u with _ | l1 <;>
    rcases h2 : s.user_tpm u with _ | l2 <;>
      simp [h1, h2, fupd, hv]

theorem initUser_user_rpm_other (u v : Nat) (s : RLState) (hv : v ≠ u) :
    (initUser u s).user_rpm v = s.user_rpm v := by
  unfold initUser
  rcases h1 : s.user_rpm u with _ | a <;>
    rcases h2 : s.user_tpm u with _ | b <;>
      rcases h3 : s.user_rpd u with _ | c <;>
        simp [h1, h2, h3, fupd, hv]

theorem initUser_user_tpm_other (u v : Nat) (s : RLState) (hv : v ≠ u) :
    (initUser u s).user_tpm v = s.user_tpm v := by
  unfold initUser
  rcases h1 : s.user_rpm u with _ | a <;>
    rcases h2 : s.user_tpm u with _ | b <;>
      rcases h3 : s.user_rpd u with _ | c <;>
        simp [h1, h2, h3, fupd, hv]

theorem initUser_user_rpd_other (u v : Nat) (s : RLState) (hv : v ≠ u) :
    (initUser u s).user_rpd v = s.user_rpd v := by
  unfold initUser
  rcases h1 : s.user_rpm u with _ | a <;>
    rcases h2 : s.user_tpm u with _ | b <;>
      rcases h3 : s.user_rpd u with _ | c <;>
        simp [h1, h2, h3, fupd, hv]

/-- Case analysis of _reset_daily_counters: either the counter is reset
(no recorded date, or a stale one) or the state is returned untouched with
a current recorded date. -/
theorem reset_cases (today : Int) (u : Nat) (s : RLState) :
    resetDailyCounters today u s
        = { s with user_rpd := fupd s.user_rpd u (some 0),
                   user_rpd_date := fupd s.user_rpd_date u (some today) } ∨
    (resetDailyCounters today u s = s ∧
      ∃ d, s.user_rpd_date u = some d ∧ ¬ d < today) := by
  unfold resetDailyCounters
  rcases hd : s.user_rpd_date u with _ | d
  · left; simp [hd]
  · by_cases hlt : d < today
    · left; simp [hd, hlt]
    · right
      refine ⟨by simp [hd, hlt], d, rfl, hlt⟩

theorem reset_eq_self (today : Int) (u : Nat) (s : RLState) (d : Int)
    (hd : s.user_rpd_date u = some d) (hlt : ¬ d < today) :
    resetDailyCounters today u s = s := by
  unfold resetDailyCounters
  simp [hd, hlt]

theorem clean_eq_self (now : ℚ) (u : Nat) (s : RLState)
    (l1 : List ℚ) (h1 : s.user_rpm u = some l1)
    (hd1 : l1.dropWhile (oldReq (now - 60)) = l1)
    (l2 : List (ℚ × Nat)) (h2 : s.user_tpm u = some l2)
    (hd2 : l2.dropWhile (fun e => oldReq (now - 60) e.1) = l2) :
    cleanOldRequests now u s = s := by
  have hrpm : (cleanOldRequests now u s).user_rpm = s.user_rpm := by
    funext v
    by_cases hv : v = u
    · subst hv
      rw [clean_user_rpm, h1]
      simp [hd1]
    · exact clean_user_rpm_other now u v s hv
  have htpm : (cleanOldRequests now u s).user_tpm = s.user_tpm := by
    funext v
    by_cases hv : v = u
    · subst hv
      rw [clean_user_tpm, h2]
      simp [hd2]
    · exact clean_user_tpm_other now u v s hv
  exact RLState.ext hrpm htpm (clean_user_rpd now u s) (clean_user_rpd_date now u s)

theorem init_eq_self (u : Nat) (s : RLState)
    (l1 : List ℚ) (h1 : s.user_rpm u = some l1)
    (l2 : List (ℚ × Nat)) (h2 : s.user_tpm u = some l2)
    (n3 : Nat) (h3 : s.user_rpd u = some n3) :
    initUser u s = s := by
  have hrpm : (initUser u s).user_rpm = s.user_rpm := by
    funext v
    by_cases hv : v = u
    · subst hv
      rw [initUser_user_rpm, h1]
      simp
    · exact initUser_user_rpm_other u v s hv
  have htpm : (initUser u s).user_tpm = s.user_tpm := by
    funext v
    by_cases hv : v = u
    · subst hv
      rw [initUser_user_tpm, h2]
      simp
    · exact initUser_user_tpm_other u v s hv
  have hrpd : (initUser u s).user_rpd = s.user_rpd := by
    funext v
    by_cases hv : v = u
    · subst hv
      rw [initUser_user_rpd, h3]
      simp
    · exact initUser_user_rpd_other u v s hv
  exact RLState.ext hrpm htpm hrpd (initUser_user_rpd_date u s)

/-- The user's RPM window after check_rate_limit's bookkeeping steps. -/
theorem checkState_user_rpm (now : ℚ) (today : Int) (u : Nat) (s : RLState) :
    (checkState now today u s).user_rpm u
      = some (((s.user_rpm u).getD []).dropWhile (oldReq (now - 60))) := by
  unfold checkState
  rw [initUser_user_rpm, clean_user_rpm,
      show (resetDailyCounters today u s).user_rpm u = s.user_rpm u from
        congrFun (reset_user_rpm today u s) u]
  cases hx : s.user_rpm u <;> simp

/-- The user's TPM window after check_rate_limit's bookkeeping steps. -/
theorem checkState_user_tpm (now : ℚ) (today : Int) (u : Nat) (s : RLState) :
    (checkState now today u s).user_tpm u
      = some (((s.user_tpm u).getD []).dropWhile (fun e => oldReq (now - 60) e.1)) := by
  unfold checkState
  rw [initUser_user_tpm, clean_user_tpm,
      show (resetDailyCounters today u s).user_tpm u = s.user_tpm u from
        congrFun (reset_user_tpm today u s) u]
  cases hx : s.user_tpm u <;> simp

/-- The user's daily counter after check_rate_limit's bookkeeping steps. -/
theorem checkState_user_rpd (now : ℚ) (today : Int) (u : Nat) (s : RLState) :
    (checkState now today u s).user_rpd u
      = some (((resetDailyCounters today u s).user_rpd u).getD 0) := by
  unfold checkState
  rw [initUser_user_rpd,
      show (cleanOldRequests now u (resetDailyCounters today u s)).user_rpd
          = (resetDailyCounters today u s).user_rpd from
        clean_user_rpd now u _]

/-- The user's reset date after check_rate_limit's bookkeeping steps. -/
theorem checkState_user_rpd_date (now : ℚ) (today : Int) (u : Nat) (s : RLState) :
    (checkState now today u s).user_rpd_date u
      = (resetDailyCounters today u s).user_rpd_date u := by
  unfold checkState
  rw [show (initUser u (cleanOldRequests now u (resetDailyCounters today u s))).user_rpd_date
        = (cleanOldRequests now u (resetDailyCounters today u s)).user_rpd_date from
      initUser_user_rpd_date u _,
      show (cleanOldRequests now u (resetDailyCounters today u s)).user_rpd_date
        = (resetDailyCounters today u s).user_rpd_date from
      clean_user_rpd_date now u _]

/-- check_rate_limit's bookkeeping is idempotent: running it on the state
it produced changes nothing. -/
theorem checkState_idem (now : ℚ) (today : Int) (u : Nat) (s : RLState) :
    checkState now today u (checkState now today u s) = checkState now today u s := by
  obtain ⟨d, hd, hnlt⟩ :
      ∃ d, (checkState now today u s).user_rpd_date u = some d ∧ ¬ d < today := by
    rw [checkState_user_rpd_date]
    rcases reset_cases today u s with h | ⟨h, d, hd, hnlt⟩
    · refine ⟨today, ?_, by omega⟩
      rw [h]
      simp
    · rw [h]
      exact ⟨d, hd, hnlt⟩
  conv_lhs => rw [checkState]
  rw [reset_eq_self today u _ d hd hnlt,
      clean_eq_self now u _ _ (checkState_user_rpm now today u s)
        (List.dropWhile_idempotent _ _) _ (checkState_user_tpm now today u s)
        (List.dropWhile_idempotent _ _),
      init_eq_self u _ _ (checkState_user_rpm now today u s) _
        (checkState_user_tpm now today u s) _ (checkState_user_rpd now today u s)]

/-- Claim C10: check_rate_limit never consumes budget. Its output windows
for the checked user are sub-lists of the input windows (entries are only
evicted, never appended), the daily counter it reports is the old value or
a reset 0 (never an increment), every other user's tracking is untouched,
and repeating the call on the resulting state at the same instant returns
the same answer and the same state; record_request is what appends to the
windows and increments the daily counter. -/
theorem C10_check_pure (cfg : RLConfig) (now : ℚ) (today : Int) (u : Nat)
    (tok : Nat) (s : RLState) (b : Bool) (s' : RLState)
    (h : check_rate_limit cfg now today u tok s = (b, s')) :
    ((s'.user_rpm u).getD []).Sublist ((s.user_rpm u).getD []) ∧
    ((s'.user_tpm u).getD []).Sublist ((s.user_tpm u).getD []) ∧
    (∀ n, s'.user_rpd u = some n → n = 0 ∨ s.user_rpd u = some n) ∧
    (∀ v, v ≠ u → s'.user_rpm v = s.user_rpm v ∧ s'.user_tpm v = s.user_tpm v ∧
      s'.user_rpd v = s.user_rpd v ∧ s'.user_rpd_date v = s.user_rpd_date v) ∧
    check_rate_limit cfg now today u tok s' = (b, s') ∧
    ((record_request now u tok s).user_rpm u
        = some (((s.user_rpm u).getD []) ++ [now]) ∧
     (record_request now u tok s).user_tpm u
        = some (((s.user_tpm u).getD []) ++ [(now, tok)]) ∧
     (record_request now u tok s).user_rpd u
        = some (((s.user_rpd u).getD 0) + 1)) := by
  rw [show check_rate_limit cfg now today u tok s
      = (checkAnswer cfg u tok (checkState now today u s), checkState now today u s)
      from rfl] at h
  have hb : checkAnswer cfg u tok (checkState now today u s) = b := congrArg Prod.fst h
  have hst : checkState now today u s = s' := congrArg Prod.snd h
  subst hst
  refine ⟨?_, ?_, ?_, ?_, ?_, ?_, ?_, ?_⟩
  · rw [checkState_user_rpm]
    simpa using List.dropWhile_sublist _
  · rw [checkState_user_tpm]
    simpa using List.dropWhile_sublist _
  · intro n hn
    rw [checkState_user_rpd] at hn
    have hn' : n = ((resetDailyCounters today u s).user_rpd u).getD 0 :=
      (Option.some.inj hn).symm
    rcases reset_cases today u s with hres | ⟨hres, _⟩
    · left
      rw [hres] at hn'
      simpa using hn'
    · rw [hres] at hn'
      rcases hx : s.user_rpd u with _ | m
      · left
        rw [hx] at hn'
        simpa using hn'
      · right
        rw [hx] at hn'
        simp at hn'
        simp [hx, hn']
  · intro v hv
    have hdate : (checkState now today u s).user_rpd_date v = s.user_rpd_date v := by
      unfold checkState
      rw [congrFun (initUser_user_rpd_date u _) v,
          congrFun (clean_user_rpd_date now u _) v]
      exact reset_user_rpd_date_other today u v s hv
    have hrpd : (checkState now today u s).user_rpd v = s.user_rpd v := by
      unfold checkState
      rw [initUser_user_rpd_other u v _ hv, congrFun (clean_user_rpd now u _) v]
      exact reset_user_rpd_other today u v s hv
    have hrpm : (checkState now today u s).user_rpm v = s.user_rpm v := by
      unfold checkState
      rw [initUser_user_rpm_other u v _ hv, clean_user_rpm_other now u v _ hv]
      exact congrFun (reset_user_rpm today u s) v
    have htpm : (checkState now today u s).user_tpm v = s.user_tpm v := by
      unfold checkState
      rw [initUser_user_tpm_other u v _ hv, clean_user_tpm_other now u v _ hv]
      exact congrFun (reset_user_tpm today u s) v
    exact ⟨hrpm, htpm, hrpd, hdate⟩
  · rw [show check_rate_limit cfg now today u tok (checkState now today u s)
        = (checkAnswer cfg u tok (checkState now today u (checkState now today u s)),
           checkState now today u (checkState now today u s)) from rfl,
        checkState_idem, hb]
  · simp [record_request, initUser_user_rpm]
  · simp [record_request, initUser_user_tpm]
  · simp [record_request, initUser_user_rpd]

/-- Witness for C10 at a concrete input: checking user 0 against the small
ceiling with two in-window requests leaves the window a sub-list of the
original and yields the same answer when repeated on the resulting state. -/
theorem C10_check_pure_witness :
    ((((check_rate_limit cfgSmall 50 0 0 0 rlTwo).2).user_rpm 0).getD []).Sublist
        ((rlTwo.user_rpm 0).getD []) ∧
    check_rate_limit cfgSmall 50 0 0 0 ((check_rate_limit cfgSmall 50 0 0 0 rlTwo).2)
      = ((check_rate_limit cfgSmall 50 0 0 0 rlTwo).1,
         (check_rate_limit cfgSmall 50 0 0 0 rlTwo).2) :=
  ⟨(C10_check_pure cfgSmall 50 0 0 0 rlTwo
      (check_rate_limit cfgSmall 50 0 0 0 rlTwo).1
      (check_rate_limit cfgSmall 50 0 0 0 rlTwo).2 rfl).1,
   (C10_check_pure cfgSmall 50 0 0 0 rlTwo
      (check_rate_limit cfgSmall 50 0 0 0 rlTwo).1
      (check_rate_limit cfgSmall 50 0 0 0 rlTwo).2 rfl).2.2.2.2.1⟩

/-! ## Claim C7 -/

/-- Claim C7: generate_content sleeps exactly the wait the rate limiter
advises (when positive) and re-checks the budget at the later instant;
when the re-check still fails it raises RateLimitExceeded having issued no
outbound provider call and recorded no usage; and usage is recorded exactly
when the provider call succeeds — both provider-error paths leave the
rate-limiter state exactly as the re-check left it. -/
theorem C7_gateway_budget (cfg : RLConfig) (now1 now2 : ℚ) (today : Int)
    (u : Nat) (prompt : String) (nImages : Nat) (provider : ProviderOutcome)
    (s : RLState)
    (tokens : Nat) (htok : tokens = estimateTokens prompt nImages)
    (w : ℚ × RLState) (hw : w = wait_for_rate_limit cfg now1 today u tokens s)
    (c : Bool × RLState) (hc : c = check_rate_limit cfg now2 today u tokens w.2)
    (r : GCResult)
    (hr : r = generate_content cfg now1 now2 today u prompt nImages provider s) :
    (r.slept = if 0 < w.1 then w.1 else 0) ∧
    (c.1 = false →
      r.result = .error (.rateLimitExceeded ("Rate limit exceeded for user " ++ toString u)) ∧
      r.providerCalls = 0 ∧ r.state = c.2) ∧
    (c.1 = true →
      (∀ t raw, provider = .ok t raw →
        r.result = .ok (t, raw) ∧ r.providerCalls = 1 ∧
        r.state = record_request now2 u tokens c.2 ∧
        r.state.user_rpm u = some (((c.2.user_rpm u).getD []) ++ [now2]) ∧
        r.state.user_rpd u = some (((c.2.user_rpd u).getD 0) + 1)) ∧
      (∀ m, provider = .rateLimited m →
        r.result = .error (.rateLimitExceeded ("OpenAI API rate limit exceeded: " ++ m)) ∧
        r.providerCalls = 1 ∧ r.state = c.2) ∧
      (∀ m, provider = .apiError m →
        r.result = .error (.apiError ("OpenAI API error: " ++ m)) ∧
        r.providerCalls = 1 ∧ r.state = c.2)) := by
  subst htok hw hc hr
  unfold generate_content
  rcases hb : (check_rate_limit cfg now2 today u (estimateTokens prompt nImages)
      (wait_for_rate_limit cfg now1 today u (estimateTokens prompt nImages) s).2).1 with _ | _
  · simp only [hb]
    refine ⟨rfl, fun _ => ⟨rfl, rfl, rfl⟩, fun hcon => ?_⟩
    exact absurd hcon (by simp)
  · simp only [hb]
    refine ⟨?_, fun hcon => absurd hcon (by simp), fun _ => ⟨?_, ?_, ?_⟩⟩
    · cases provider <;> rfl
    · intro t raw hp
      subst hp
      refine ⟨rfl, rfl, rfl, ?_, ?_⟩
      · simp [record_request, initUser_user_rpm]
      · simp [record_request, initUser_user_rpd]
    · intro m hp
      subst hp
      exact ⟨rfl, rfl, rfl⟩
    · intro m hp
      subst hp
      exact ⟨rfl, rfl, rfl⟩

/-- Witness for C7 at a concrete input: an empty limiter under the default
ceilings lets a one-character prompt with no images through; the provider
succeeds and the request is recorded for user 0. -/
theorem C7_gateway_budget_witness :
    (generate_content cfgStd 0 0 0 0 "p" 0 (.ok "t" "raw") emptyRL).result
        = .ok ("t", "raw") ∧
    (generate_content cfgStd 0 0 0 0 "p" 0 (.ok "t" "raw") emptyRL).state.user_rpd 0
        = some 1 :=
  have h := C7_gateway_budget cfgStd 0 0 0 0 "p" 0 (.ok "t" "raw") emptyRL
    (estimateTokens "p" 0) rfl
    (wait_for_rate_limit cfgStd 0 0 0 (estimateTokens "p" 0) emptyRL) rfl
    (check_rate_limit cfgStd 0 0 0 (estimateTokens "p" 0)
      (wait_for_rate_limit cfgStd 0 0 0 (estimateTokens "p" 0) emptyRL).2) rfl
    (generate_content cfgStd 0 0 0 0 "p" 0 (.ok "t" "raw") emptyRL) rfl
  have h3 := (h.2.2 (by decide)).1 "t" "raw" rfl
  ⟨h3.1, by
    rw [h3.2.2.2.2]
    decide⟩

/-! ## Claim C4 -/

/-- Stage 2 tags the entry of image idx with origin idx and image_index idx
on every outcome. -/
theorem exMk_origin (outcomes : Nat → ExtractOutcome) (idx : Nat) :
    (exMk outcomes idx).origin = idx := by
  unfold exMk
  cases outcomes idx <;> rfl

theorem exMk_image_index (outcomes : Nat → ExtractOutcome) (idx : Nat) :
    (exMk outcomes idx).image_index = idx := by
  unfold exMk
  cases outcomes idx <;> rfl

theorem valMk_origin (outcomes : Nat → ValidateOutcome) (idx : Nat) :
    (valMk outcomes idx).origin = idx := by
  unfold valMk
  cases outcomes idx <;> rfl

/-- Counterexample to C4 as stated: in stage 3, a successfully parsed
validation keeps the image_index the model reported. With two images,
where image 0's validation parses but reports image_index 7 and image 1's
task raises, the merged list is ordered [entry of image 1, entry of image
0]: it is not sorted by original image index and position 0 does not hold
the entry of index 0. -/
theorem C4_counterexample :
    (validate_extractions valOutBad 2).map ValEntry.origin = [1, 0] ∧
    ¬ (∀ i : Fin (validate_extractions valOutBad 2).length,
        ((validate_extractions valOutBad 2).get i).origin = i.val) := by
  constructor
  · decide
  · decide

/-- Claim C4, amended: for stage 2 the merged list always has length N and
its i-th entry is the (error or success) entry of image i, tagged with
image_index i — stage 2 assigns the index itself on every path. For stage
3 the same holds provided every successfully parsed validation reports its
original image index (the parse-error and exception entries always do);
otherwise the sort follows whatever index the model reported, as the
counterexample shows. -/
theorem C4_fanout_merge (n : Nat) (exOut : Nat → ExtractOutcome)
    (valOut : Nat → ValidateOutcome)
    (hval : ∀ i, i < n → ∀ f d, valOut i = .parsed f d → f = some (Int.ofNat i)) :
    ((extract_tables_from_images exOut n).length = n ∧
     ∀ i : Fin (extract_tables_from_images exOut n).length,
       ((extract_tables_from_images exOut n).get i).origin = i.val ∧
       ((extract_tables_from_images exOut n).get i).image_index = i.val) ∧
    ((validate_extractions valOut n).length = n ∧
     ∀ i : Fin (validate_extractions valOut n).length,
       ((validate_extractions valOut n).get i).origin = i.val) := by
  constructor
  · -- stage 2
    have hsorted : List.Sorted exKeyLe ((List.range n).map (exMk exOut)) := by
      rw [List.Sorted, List.pairwise_map]
      refine (List.pairwise_lt_range n).imp ?_
      intro a b hab
      unfold exKeyLe
      rw [exMk_image_index, exMk_image_index]
      exact_mod_cast Nat.le_of_lt hab
    have heq : extract_tables_from_images exOut n = (List.range n).map (exMk exOut) := by
      unfold extract_tables_from_images
      exact hsorted.insertionSort_eq
    rw [heq]
    refine ⟨by simp, fun i => ?_⟩
    rw [List.get_eq_getElem]
    simp only [List.getElem_map, List.getElem_range]
    exact ⟨exMk_origin exOut _, exMk_image_index exOut _⟩
  · -- stage 3, under the amended hypothesis
    have hkey : ∀ idx, idx < n → (valMk valOut idx).sortKey = idx := by
      intro idx hidx
      unfold valMk
      rcases hv : valOut idx with ⟨f, d⟩ | ⟨e, rr⟩ | msg
      · have hf : f = some (Int.ofNat idx) := hval idx hidx f d hv
        subst hf
        rfl
      · rfl
      · rfl
    have hsorted : List.Sorted valKeyLe ((List.range n).map (valMk valOut)) := by
      rw [List.Sorted, List.pairwise_map]
      refine List.Pairwise.imp_of_mem ?_ (List.pairwise_lt_range n)
      intro a b ha hb hab
      unfold valKeyLe
      rw [hkey a (List.mem_range.mp ha), hkey b (List.mem_range.mp hb)]
      exact_mod_cast Nat.le_of_lt hab
    have heq : validate_extractions valOut n = (List.range n).map (valMk valOut) := by
      unfold validate_extractions
      exact hsorted.insertionSort_eq
    rw [heq]
    refine ⟨by simp, fun i => ?_⟩
    rw [List.get_eq_getElem]
    simp only [List.getElem_map, List.getElem_range]
    exact valMk_origin valOut _

/-- Witness for C4 at a concrete input: three images whose extractions all
parse and whose validations all report their own index merge into
three-entry lists with entry i at position i in both stages. -/
theorem C4_fanout_merge_witness :
    (extract_tables_from_images exOutOk 3).length = 3 ∧
    (validate_extractions valOutGood 3).length = 3 :=
  have h := C4_fanout_merge 3 exOutOk valOutGood
    (by
      intro i _ f d hp
      have : ValidateOutcome.parsed (some (Int.ofNat i)) "d" = .parsed f d := hp ▸ rfl
      injection this with hf _
      exact hf.symm ▸ rfl)
  ⟨h.1.1, h.2.1⟩

/-! ## Claim C8 -/

/-- Claim C8: when the finalize model call returned text that the strict
parse and all three recovery strategies fail on, generate_final_output
returns the error-marker structure (error text plus the raw response
truncated to 1000 characters) instead of raising, so the store stage still
marks the job Completed with the marker as its result — not Failed. -/
theorem C8_finalize_error_marker (text parseErr : String)
    (parse strat1 strat2 strat3 : String → Option String)
    (hp : parse text = none) (h1 : strat1 text = none)
    (h2 : strat2 text = none) (h3 : strat3 text = none) :
    generate_final_output (.ok text) parse strat1 strat2 strat3 parseErr
      = .ok (.errorMarker parseErr (truncateRaw text)) ∧
    finalizeAndStore
        (generate_final_output (.ok text) parse strat1 strat2 strat3 parseErr)
      = (.completed, some (.errorMarker parseErr (truncateRaw text))) := by
  have hout : generate_final_output (.ok text) parse strat1 strat2 strat3 parseErr
      = .ok (.errorMarker parseErr (truncateRaw text)) := by
    unfold generate_final_output
    dsimp only
    rw [hp, h1, h2, h3]
  exact ⟨hout, by rw [hout]; rfl⟩

/-- Witness for C8 at a concrete input: a model response on which every
parse attempt fails completes the job with the error marker. -/
theorem C8_finalize_error_marker_witness :
    generate_final_output (.ok "oops") (fun _ => none) (fun _ => none)
        (fun _ => none) (fun _ => none) "Failed to parse final output"
      = .ok (.errorMarker "Failed to parse final output" (truncateRaw "oops")) ∧
    finalizeAndStore
        (generate_final_output (.ok "oops") (fun _ => none) (fun _ => none)
          (fun _ => none) (fun _ => none) "Failed to parse final output")
      = (.completed, some (.errorMarker "Failed to parse final output" (truncateRaw "oops"))) :=
  C8_finalize_error_marker "oops" "Failed to parse final output"
    (fun _ => none) (fun _ => none) (fun _ => none) (fun _ => none)
    rfl rfl rfl rfl

/-! ## Claim C9 -/

/-- Claim C9: broadcast delivers the event to every currently-subscribed
channel of the job id and touches no other job's channels; broadcasting to
a job id with no subscriber set is a no-op returning normally with the
state unchanged. -/
theorem C9_broadcast (s : EMState) (eid : Nat) (ev : String) :
    (s.connections eid = none → em_broadcast s eid ev = s) ∧
    (∀ chans, s.connections eid = some chans →
      (em_broadcast s eid ev).connections eid = some (chans.map (fun q => q ++ [ev])) ∧
      ∀ e, e ≠ eid → (em_broadcast s eid ev).connections e = s.connections e) := by
  constructor
  · intro h
    unfold em_broadcast
    rw [h]
  · intro chans h
    unfold em_broadcast
    rw [h]
    exact ⟨by simp, fun e he => by simp [fupd, he]⟩

/-- Witness for C9 at concrete inputs: broadcasting to a job id with no
subscribers returns the state unchanged, and broadcasting to a job with two
subscribed channels appends the event to both. -/
theorem C9_broadcast_witness :
    em_broadcast ⟨fun _ => none⟩ 4 "ev" = ⟨fun _ => none⟩ ∧
    (em_broadcast ⟨fun _ => some [[], ["a"]]⟩ 4 "ev").connections 4
      = some [["ev"], ["a", "ev"]] :=
  ⟨(C9_broadcast ⟨fun _ => none⟩ 4 "ev").1 rfl,
   ((C9_broadcast ⟨fun _ => some [[], ["a"]]⟩ 4 "ev").2 [[], ["a"]] rfl).1⟩

/-! ## Claim C2 -/

/-- Once the medium-priority insertion loop has re-queued the new item
(found_insert is set) and every item still queued is non-high, each further
iteration gets one item from the front and puts it back at the back: the
queue never empties and the loop never terminates, whatever the fuel. -/
theorem mediumLoop_found_diverges (newItem : QItem) :
    ∀ (fuel : Nat) (q temp : List QItem), q ≠ [] →
      (∀ x ∈ q, x.1 ≠ Priority.high) →
      mediumLoop newItem fuel q temp true = none := by
  intro fuel
  induction fuel with
  | zero =>
      intro q temp hq _
      cases q with
      | nil => exact absurd rfl hq
      | cons a t => rfl
  | succ f ih =>
      intro q temp hq hnh
      cases q with
      | nil => exact absurd rfl hq
      | cons a t =>
          have ha : a.1 ≠ Priority.high := hnh a (List.mem_cons_self a t)
          show (if a.1 = Priority.high then
                  mediumLoop newItem f t (temp ++ [a]) true
                else if true = false then
                  mediumLoop newItem f (t ++ temp ++ [newItem, a]) temp true
                else mediumLoop newItem f (t ++ [a]) temp true) = none
          rw [if_neg ha, if_neg (by simp)]
          refine ih (t ++ [a]) temp (by simp) ?_
          intro x hx
          rcases List.mem_append.mp hx with h | h
          · exact hnh x (List.mem_cons_of_mem a h)
          · rw [List.mem_singleton.mp h]
            exact ha

/-- Claim C2 (the defect): enqueueing a medium-priority job b while the
user's pending queue holds a low-priority job a makes the insertion loop of
enqueue_extraction run forever — the loop drains and refills the same
asyncio.Queue, so after the insertion point is found every iteration gets
one item and puts one back and the queue never empties. No fuel makes the
loop terminate, so the enqueue never completes and no dequeue order exists,
contradicting the claimed order C, B, D, A (which already fails at the
second enqueue of the claimed sequence Low(A), Medium(B), High(C),
Medium(D)). -/
theorem C2_medium_enqueue_diverges (a b : Nat) :
    ∀ fuel : Nat,
      mediumInsert fuel (Priority.medium, b) [(Priority.low, a)] = none := by
  intro fuel
  cases fuel with
  | zero => rfl
  | succ f =>
      show (if (Priority.low, a).1 = Priority.high then
              mediumLoop (Priority.medium, b) f [] ([] ++ [(Priority.low, a)]) false
            else if false = false then
              mediumLoop (Priority.medium, b) f
                ([] ++ [] ++ [(Priority.medium, b), (Priority.low, a)]) [] true
            else mediumLoop (Priority.medium, b) f ([] ++ [(Priority.low, a)]) [] false) = none
      rw [if_neg (by simp), if_pos rfl]
      refine mediumLoop_found_diverges (Priority.medium, b) f _ [] (by simp) ?_
      intro x hx
      rcases List.mem_cons.mp hx with h | h
      · rw [h]
        simp
      · rw [List.mem_singleton.mp h]
        simp

/-! ## Claim C3 -/

theorem runMain_queues (s : QMState) (jid : Nat) (oc : RunOutcome) :
    (runMain s jid oc).queues = s.queues := by
  rcases oc with _ | po
  · rfl
  · unfold runMain
    dsimp only
    split
    · rfl
    · rcases po with _ | b
      · rfl
      · rcases b <;> rfl

theorem runMain_processing (s : QMState) (jid : Nat) (oc : RunOutcome) :
    (runMain s jid oc).processing = s.processing := by
  rcases oc with _ | po
  · rfl
  · unfold runMain
    dsimp only
    split
    · rfl
    · rcases po with _ | b
      · rfl
      · rcases b <;> rfl

theorem runMain_files (s : QMState) (jid : Nat) (oc : RunOutcome) :
    (runMain s jid oc).files = s.files := by
  rcases oc with _ | po
  · rfl
  · unfold runMain
    dsimp only
    split
    · rfl
    · rcases po with _ | b
      · rfl
      · rcases b <;> rfl

theorem runMain_tasks (s : QMState) (jid : Nat) (oc : RunOutcome) :
    (runMain s jid oc).tasks = s.tasks := by
  rcases oc with _ | po
  · rfl
  · unfold runMain
    dsimp only
    split
    · rfl
    · rcases po with _ | b
      · rfl
      · rcases b <;> rfl

theorem runMain_running (s : QMState) (jid : Nat) (oc : RunOutcome) :
    (runMain s jid oc).running = s.running := by
  rcases oc with _ | po
  · rfl
  · unfold runMain
    dsimp only
    split
    · rfl
    · rcases po with _ | b
      · rfl
      · rcases b <;> rfl

theorem runBody_queues (s : QMState) (u jid : Nat) (oc : RunOutcome) :
    (runBody s u jid oc).queues = s.queues := by
  unfold runBody
  dsimp only
  split <;> simp [runMain_queues]

theorem runBody_processing_self (s : QMState) (u jid : Nat) (oc : RunOutcome) :
    (runBody s u jid oc).processing u = none := by
  unfold runBody
  dsimp only
  split <;> simp [fupd]

theorem runBody_processing_other (s : QMState) (u v jid : Nat) (oc : RunOutcome)
    (hv : v ≠ u) : (runBody s u jid oc).processing v = s.processing v := by
  unfold runBody
  dsimp only
  split <;> simp [fupd, hv, runMain_processing]

theorem runBody_running_self (s : QMState) (u jid : Nat) (oc : RunOutcome) :
    (runBody s u jid oc).running u = (s.running u).erase jid := by
  unfold runBody
  dsimp only
  split <;> simp [fupd, runMain_running]

theorem runBody_running_other (s : QMState) (u v jid : Nat) (oc : RunOutcome)
    (hv : v ≠ u) : (runBody s u jid oc).running v = s.running v := by
  unfold runBody
  dsimp only
  split <;> simp [fupd, hv, runMain_running]

theorem runBody_files_self (s : QMState) (u jid : Nat) (oc : RunOutcome) :
    (runBody s u jid oc).files jid = false := by
  unfold runBody
  dsimp only
  split <;> simp [fupd]

theorem runBody_tasks_self (s : QMState) (u jid : Nat) (oc : RunOutcome)
    (hq : (s.queues u).isSome) :
    (runBody s u jid oc).tasks u = s.tasks u + 1 := by
  have hq' : (((runMain s jid oc).queues) u).isSome := by
    rw [runMain_queues]
    exact hq
  unfold runBody
  dsimp only
  rw [if_pos hq']
  simp [fupd, runMain_tasks]

/-- Claim C3: on every exit path of the pipeline section of process_queue —
normal completion, pipeline exception (with or without a successful
failure-status write), missing extraction record, or missing file bytes —
the finally block clears the user's processing slot, deletes the job's
stored file bytes, and schedules the next process_queue task for the user
(whose queue entry, once created, always exists). -/
theorem C3_slot_always_released (s : QMState) (u jid : Nat) (oc : RunOutcome)
    (hq : (s.queues u).isSome) :
    (runBody s u jid oc).processing u = none ∧
    (runBody s u jid oc).files jid = false ∧
    (runBody s u jid oc).tasks u = s.tasks u + 1 :=
  ⟨runBody_processing_self s u jid oc, runBody_files_self s u jid oc,
   runBody_tasks_self s u jid oc hq⟩

/-- Witness for C3 at a concrete input: finishing job 5 of user 0 (here
with a pipeline failure whose status write also fails) clears the slot,
drops the file bytes and schedules a follow-up task. -/
theorem C3_slot_always_released_witness :
    (runBody qmRun 0 5 (.proceed (.fail false))).processing 0 = none ∧
    (runBody qmRun 0 5 (.proceed (.fail false))).files 5 = false ∧
    (runBody qmRun 0 5 (.proceed (.fail false))).tasks 0 = qmRun.tasks 0 + 1 :=
  C3_slot_always_released qmRun 0 5 (.proceed (.fail false)) rfl

/-! ## Claim C1 -/

theorem enqueueLocked_running (s : QMState) (u : Nat) (q' : List QItem) :
    (enqueueLocked s u q').running = s.running := by
  unfold enqueueLocked
  rcases hq : s.queues u with _ | q0 <;> dsimp only <;> split <;> rfl

theorem enqueueLocked_queues_self (s : QMState) (u : Nat) (q' : List QItem) :
    (enqueueLocked s u q').queues u = some q' := by
  unfold enqueueLocked
  rcases hq : s.queues u with _ | q0 <;> dsimp only <;> split <;> simp [fupd]

theorem enqueueLocked_queues_other (s : QMState) (u v : Nat) (q' : List QItem)
    (hv : v ≠ u) : (enqueueLocked s u q').queues v = s.queues v := by
  unfold enqueueLocked
  rcases hq : s.queues u with _ | q0 <;> dsimp only <;> split <;> simp [fupd, hv]

theorem enqueueLocked_processing_self (s : QMState) (u : Nat) (q' : List QItem) :
    (enqueueLocked s u q').processing u
      = (match s.queues u with | none => none | some _ => s.processing u) := by
  unfold enqueueLocked
  rcases hq : s.queues u with _ | q0 <;> dsimp only <;> split <;> simp [fupd]

theorem enqueueLocked_processing_other (s : QMState) (u v : Nat) (q' : List QItem)
    (hv : v ≠ u) : (enqueueLocked s u q').processing v = s.processing v := by
  unfold enqueueLocked
  rcases hq : s.queues u with _ | q0 <;> dsimp only <;> split <;> simp [fupd, hv]

theorem storeFile_inv {s : QMState} (hs : QMInv s) (jid : Nat) :
    QMInv (storeFile s jid) := by
  intro u
  exact hs u

theorem enqueueLocked_inv {s : QMState} (hs : QMInv s) (u : Nat) (q' : List QItem) :
    QMInv (enqueueLocked s u q') := by
  intro v
  by_cases hv : v = u
  · subst hv
    constructor
    · intro hnone
      rw [enqueueLocked_queues_self] at hnone
      exact absurd hnone (by simp)
    · rw [enqueueLocked_processing_self, congrFun (enqueueLocked_running s v q') v]
      rcases hq : s.queues v with _ | q0
      · dsimp only
        have hpnone : s.processing v = none := (hs v).1 hq
        have h2 := (hs v).2
        rw [hpnone] at h2
        exact h2
      · dsimp only
        exact (hs v).2
  · constructor
    · intro hnone
      rw [enqueueLocked_queues_other s u v q' hv] at hnone
      rw [enqueueLocked_processing_other s u v q' hv]
      exact (hs v).1 hnone
    · rw [enqueueLocked_processing_other s u v q' hv,
          congrFun (enqueueLocked_running s u q') v]
      exact (hs v).2

/-- Case analysis of the locked section at the head of process_queue:
either nothing changes (no queue, busy slot, or empty queue), or the slot
was free and the queue's head is dequeued into the slot, starting its
pipeline. -/
theorem startLocked_cases (s : QMState) (u : Nat) :
    startLocked s u = s ∨
    ∃ p jid rest, s.queues u = some ((p, jid) :: rest) ∧ s.processing u = none ∧
      startLocked s u
        = { s with queues := fupd s.queues u (some rest),
                   processing := fupd s.processing u (some jid),
                   running := fupd s.running u (jid :: s.running u) } := by
  unfold startLocked
  rcases hq : s.queues u with _ | q0
  · left
    rfl
  · by_cases hp : (s.processing u).isSome = true
    · left
      dsimp only
      rw [if_pos hp]
    · rcases q0 with _ | ⟨⟨p, jid⟩, rest⟩
      · left
        dsimp only
        rw [if_neg hp]
      · right
        have hpnone : s.processing u = none := by
          rcases hx : s.processing u with _ | j
          · rfl
          · rw [hx] at hp
            simp at hp
        refine ⟨p, jid, rest, rfl, hpnone, ?_⟩
        dsimp only
        rw [if_neg hp]

theorem startTask_inv {s : QMState} (hs : QMInv s) (u : Nat) :
    QMInv (startTask s u) := by
  unfold startTask
  have hs0 : QMInv { s with tasks := fupd s.tasks u (s.tasks u - 1) } := by
    intro v
    exact hs v
  rcases startLocked_cases { s with tasks := fupd s.tasks u (s.tasks u - 1) } u with
    h | ⟨p, jid, rest, hq, hpn, h⟩
  · rw [h]
    exact hs0
  · rw [h]
    intro v
    by_cases hv : v = u
    · subst hv
      constructor
      · intro hnone
        dsimp only at hnone
        rw [fupd_same] at hnone
        exact absurd hnone (by simp)
      · dsimp only
        rw [fupd_same, fupd_same]
        have h2 := (hs0 v).2
        rw [hpn] at h2
        dsimp only at h2
        rw [h2]
    · constructor
      · intro hnone
        dsimp only at hnone ⊢
        rw [fupd_other _ _ _ _ hv] at hnone
        rw [fupd_other _ _ _ _ hv]
        exact (hs0 v).1 hnone
      · dsimp only
        rw [fupd_other _ _ _ _ hv, fupd_other _ _ _ _ hv]
        exact (hs0 v).2

theorem runBody_inv {s : QMState} (hs : QMInv s) (u jid : Nat) (oc : RunOutcome)
    (hmem : jid ∈ s.running u) : QMInv (runBody s u jid oc) := by
  intro v
  by_cases hv : v = u
  · subst hv
    constructor
    · intro _
      exact runBody_processing_self s v jid oc
    · rw [runBody_processing_self s v jid oc]
      dsimp only
      rw [runBody_running_self s v jid oc]
      rcases hp : s.processing v with _ | j
      · have h2 := (hs v).2
        rw [hp] at h2
        dsimp only at h2
        rw [h2] at hmem
        exact absurd hmem (by simp)
      · have h2 := (hs v).2
        rw [hp] at h2
        dsimp only at h2
        rw [h2] at hmem
        have : jid = j := by simpa using hmem
        rw [h2, this]
        simp
  · constructor
    · intro hnone
      rw [congrFun (runBody_queues s u jid oc) v] at hnone
      rw [runBody_processing_other s u v jid oc hv]
      exact (hs v).1 hnone
    · rw [runBody_processing_other s u v jid oc hv,
          runBody_running_other s u v jid oc hv]
      exact (hs v).2

theorem qminv_init : QMInv initQM := by
  intro u
  exact ⟨fun _ => rfl, rfl⟩

theorem qminv_reachable {s : QMState} (h : QMReachable s) : QMInv s := by
  induction h with
  | init => exact qminv_init
  | step _ hstep ih =>
      cases hstep with
      | store jid => exact storeFile_inv ih jid
      | enqueue u jid p q' _ => exact enqueueLocked_inv ih u q'
      | start u _ => exact startTask_inv ih u
      | finish u jid oc hmem => exact runBody_inv ih u jid oc hmem

/-- Claim C1: in every state reachable by any interleaving of the queue
manager's steps, at most one pipeline is running per user (so no two jobs
of a user are simultaneously in Processing), and a scheduled process_queue
task whose user already has a non-None processing slot dequeues nothing:
the user's queue, slot and running pipelines are untouched. -/
theorem C1_mutual_exclusion :
    (∀ s, QMReachable s → ∀ u, (s.running u).length ≤ 1) ∧
    (∀ s u, (s.processing u).isSome = true →
      (startTask s u).queues u = s.queues u ∧
      (startTask s u).processing u = s.processing u ∧
      (startTask s u).running u = s.running u) := by
  constructor
  · intro s h u
    have h2 := (qminv_reachable h u).2
    rcases hp : s.processing u with _ | j
    · rw [hp] at h2
      dsimp only at h2
      rw [h2]
      simp
    · rw [hp] at h2
      dsimp only at h2
      rw [h2]
      simp
  · intro s u hp
    unfold startTask
    rcases startLocked_cases { s with tasks := fupd s.tasks u (s.tasks u - 1) } u with
      h | ⟨p, jid, rest, hq, hpn, h⟩
    · rw [h]
      exact ⟨rfl, rfl, rfl⟩
    · exfalso
      dsimp only at hpn
      rw [hpn] at hp
      simp at hp

/-- Witness for C1 at concrete states: the initial state is reachable and
has no running pipeline for user 0, and a process_queue task run while
user 0's slot holds job 3 changes none of the user's scheduling state. -/
theorem C1_mutual_exclusion_witness :
    (initQM.running 0).length ≤ 1 ∧
    (startTask qmBusy 0).queues 0 = qmBusy.queues 0 ∧
    (startTask qmBusy 0).running 0 = qmBusy.running 0 :=
  ⟨C1_mutual_exclusion.1 initQM QMReachable.init 0,
   (C1_mutual_exclusion.2 qmBusy 0 rfl).1,
   (C1_mutual_exclusion.2 qmBusy 0 rfl).2.2⟩

end Extractable
